import Mathlib

/-!
Verification development for the Hercule backend (cache, key derivation,
local fallback evaluator, discovery cascade, and the analyze orchestration).

The definitions below are a shallow embedding of the Python sources:
  * `backend/cache.py`      → namespace `CacheManager`
  * `backend/service_llm.py`→ namespace `LLMService`
  * `backend/service_discovery.py` → namespace `DiscoveryService`
  * `backend/main.py`       → namespace `Main`
Machine words are `Nat` reduced modulo `2 ^ 32`; timestamps are modelled as
integers (seconds); network and filesystem effects are explicit oracle
inputs or state fields.
-/

/-! ## SHA-256 (embedding of `hashlib.sha256(...).hexdigest()`) -/

namespace SHA256

/-- Reduce a natural number to a 32-bit word. -/
def w32 (n : Nat) : Nat := n % 4294967296

/-- Right rotation of a 32-bit word by `s` places. -/
def rotr (s x : Nat) : Nat := w32 ((x >>> s) ||| (x <<< (32 - s)))

def ch (e f g : Nat) : Nat := (e &&& f) ^^^ ((e ^^^ 4294967295) &&& g)

def maj (a b c : Nat) : Nat := (a &&& b) ^^^ (a &&& c) ^^^ (b &&& c)

def bigSigma0 (a : Nat) : Nat := rotr 2 a ^^^ rotr 13 a ^^^ rotr 22 a

def bigSigma1 (e : Nat) : Nat := rotr 6 e ^^^ rotr 11 e ^^^ rotr 25 e

def smallSigma0 (x : Nat) : Nat := rotr 7 x ^^^ rotr 18 x ^^^ (x >>> 3)

def smallSigma1 (x : Nat) : Nat := rotr 17 x ^^^ rotr 19 x ^^^ (x >>> 10)

/-- The 64 SHA-256 round constants (FIPS 180-4), written in decimal. -/
def K : List Nat :=
  [1116352408, 1899447441, 3049323471, 3921009573, 961987163, 1508970993, 2453635748,
   2870763221, 3624381080, 310598401, 607225278, 1426881987, 1925078388, 2162078206,
   2614888103, 3248222580, 3835390401, 4022224774, 264347078, 604807628, 770255983,
   1249150122, 1555081692, 1996064986, 2554220882, 2821834349, 2952996808, 3210313671,
   3336571891, 3584528711, 113926993, 338241895, 666307205, 773529912, 1294757372,
   1396182291, 1695183700, 1986661051, 2177026350, 2456956037, 2730485921, 2820302411,
   3259730800, 3345764771, 3516065817, 3600352804, 4094571909, 275423344, 430227734,
   506948616, 659060556, 883997877, 958139571, 1322822218, 1537002063, 1747873779,
   1955562222, 2024104815, 2227730452, 2361852424, 2428436474, 2756734187, 3204031479,
   3329325298]

/-- The eight working registers / hash state words. -/
structure Hash8 where
  a : Nat
  b : Nat
  c : Nat
  d : Nat
  e : Nat
  f : Nat
  g : Nat
  h : Nat
deriving Repr, DecidableEq

/-- Initial hash value (FIPS 180-4), written in decimal. -/
def H0 : Hash8 :=
  ⟨1779033703, 3144134277, 1013904242, 2773480762, 1359893119, 2600822924, 528734635, 1541459225⟩

/-- Big-endian packing of bytes into 32-bit words. -/
def toWords : List Nat → List Nat
  | b0 :: b1 :: b2 :: b3 :: rest =>
      (b0 * 16777216 + b1 * 65536 + b2 * 256 + b3) :: toWords rest
  | _ => []

/-- Extend the 16 message words with `n` further schedule words. -/
def extendW : List Nat → Nat → List Nat
  | ws, 0 => ws
  | ws, n + 1 =>
    let len := ws.length
    let w := w32 (smallSigma1 (ws.getD (len - 2) 0) + ws.getD (len - 7) 0 +
                  smallSigma0 (ws.getD (len - 15) 0) + ws.getD (len - 16) 0)
    extendW (ws ++ [w]) n

/-- One compression round; the pair carries the schedule word and round constant. -/
def round (r : Hash8) (wk : Nat × Nat) : Hash8 :=
  let t1 := w32 (r.h + bigSigma1 r.e + ch r.e r.f r.g + wk.2 + wk.1)
  let t2 := w32 (bigSigma0 r.a + maj r.a r.b r.c)
  ⟨w32 (t1 + t2), r.a, r.b, r.c, w32 (r.d + t1), r.e, r.f, r.g⟩

/-- Compress one 64-byte block into the hash state. -/
def compress (h : Hash8) (block : List Nat) : Hash8 :=
  let ws := extendW (toWords block) 48
  let r := (ws.zip K).foldl round h
  ⟨w32 (h.a + r.a), w32 (h.b + r.b), w32 (h.c + r.c), w32 (h.d + r.d),
   w32 (h.e + r.e), w32 (h.f + r.f), w32 (h.g + r.g), w32 (h.h + r.h)⟩

/-- Big-endian 64-bit length field. -/
def lenBytes (bitLen : Nat) : List Nat :=
  [56, 48, 40, 32, 24, 16, 8, 0].map (fun s => (bitLen >>> s) % 256)

/-- SHA-256 padding: `0x80`, zeros to 56 mod 64, then the bit length. -/
def pad (msg : List Nat) : List Nat :=
  let L := msg.length
  msg ++ [0x80] ++ List.replicate ((119 - L % 64) % 64) 0 ++ lenBytes (8 * L)

/-- Fold the compression function over consecutive 64-byte blocks; the first
argument is recursion fuel (any bound on the number of blocks). -/
def sha256Chunks : Nat → List Nat → Hash8 → Hash8
  | 0, _, h => h
  | _ + 1, [], h => h
  | n + 1, b :: rest, h => sha256Chunks n ((b :: rest).drop 64) (compress h ((b :: rest).take 64))

def sha256Blocks (bytes : List Nat) (h : Hash8) : Hash8 :=
  sha256Chunks bytes.length bytes h

def hexDigit (n : Nat) : Char :=
  if n < 10 then Char.ofNat (48 + n) else Char.ofNat (87 + n)

/-- Lowercase-hex rendering of one 32-bit word (8 hex digits). -/
def wordHex (w : Nat) : List Char :=
  [28, 24, 20, 16, 12, 8, 4, 0].map (fun s => hexDigit ((w >>> s) % 16))

def digestHex (h : Hash8) : List Char :=
  wordHex h.a ++ wordHex h.b ++ wordHex h.c ++ wordHex h.d ++
  wordHex h.e ++ wordHex h.f ++ wordHex h.g ++ wordHex h.h

/-- SHA-256 of a byte sequence, rendered as 64 lowercase hex characters. -/
def sha256 (msg : List Nat) : List Char := digestHex (sha256Blocks (pad msg) H0)

/-- UTF-8 encoding of one code point. -/
def utf8Char (c : Char) : List Nat :=
  let n := c.toNat
  if n < 128 then [n]
  else if n < 2048 then [192 ||| (n >>> 6), 128 ||| (n &&& 63)]
  else if n < 65536 then
    [224 ||| (n >>> 12), 128 ||| ((n >>> 6) &&& 63), 128 ||| (n &&& 63)]
  else
    [240 ||| (n >>> 18), 128 ||| ((n >>> 12) &&& 63), 128 ||| ((n >>> 6) &&& 63), 128 ||| (n &&& 63)]

/-- UTF-8 encoding of a character sequence (Python `str.encode` for `utf-8`). -/
def utf8Encode (s : List Char) : List Nat := (s.map utf8Char).flatten

end SHA256

-- Validation of the SHA-256 embedding against the standard test vectors.
set_option maxRecDepth 100000 in
example : SHA256.sha256 [] = "e3b0c44298fc1c149afbf4c8996fb92427ae41e4649b934ca495991b7852b855".toList := by decide
set_option maxRecDepth 100000 in
example : SHA256.sha256 [97, 98, 99] = "ba7816bf8f01cfea414140de5dae2223b00361a396177a9cb410ff61f20015ad".toList := by decide

/-! ## String normalization (ASCII fragment of Python `str.strip` / `str.lower`) -/

/-- ASCII whitespace stripped by Python `str.strip()` (tab, newline, vertical
tab, form feed, carriage return, space); the model covers ASCII inputs. -/
def isPySpace (c : Char) : Bool := c.toNat = 32 || (9 ≤ c.toNat && c.toNat ≤ 13)

/-- Lowercasing of one character, ASCII fragment of Python `str.lower()`. -/
def pyLowerChar (c : Char) : Char :=
  if 65 ≤ c.toNat && c.toNat ≤ 90 then Char.ofNat (c.toNat + 32) else c

/-- Python `s.strip()` on a character list: drop whitespace at both ends. -/
def pyStrip (l : List Char) : List Char :=
  ((l.dropWhile isPySpace).reverse.dropWhile isPySpace).reverse

/-! ## `backend/models.py` -/

/-- `ActionItem` from `models.py` (pydantic model). -/
structure ActionItem where
  text : String
  url : Option String := none
  priority : String
deriving Repr, DecidableEq

/-- `AnalysisResult` from `models.py`; the `datetime` timestamp is modelled
as integer seconds. -/
structure AnalysisResult where
  score : Int
  summary : String
  red_flags : List String
  user_action_items : List ActionItem
  timestamp : Int
  url : String
deriving Repr, DecidableEq

/-! ## `backend/cache.py` -/

namespace CacheManager

/-- `CACHE_TTL_DAYS` from `cache.py`. -/
def CACHE_TTL_DAYS : Int := 30

/-- The TTL (`timedelta(days=CACHE_TTL_DAYS)`) in seconds; timestamps are
modelled as integer seconds. -/
def ttlSeconds : Int := CACHE_TTL_DAYS * 86400

/-- Embedding of `CacheManager.generate_key`: SHA-256 hex digest of the
stripped, lowercased policy text (`policy_text.strip().lower()`). -/
def generate_key (policy_text : String) : String :=
  ⟨SHA256.sha256 (SHA256.utf8Encode ((pyStrip policy_text.toList).map pyLowerChar))⟩

/-- One record of the cache index / durable JSON file. `result` is `some r`
when the stored payload validates as an `AnalysisResult` and `none` when
reconstruction raises (missing field / validation failure); `timestamp` is
`some ts` when the stored timestamp string parses and `none` when the field
is missing or unparsable. -/
structure CacheEntry where
  result : Option AnalysisResult
  timestamp : Option Int
  text_hash : String
deriving Repr, DecidableEq

/-- State of the cache manager: the in-memory index (`_memory_cache`,
insertion-ordered with unique keys), the entries held by the durable JSON
file, and whether the durable medium currently accepts writes (an
unwritable medium makes `open(..., "w")`/`json.dump` raise `IOError`). -/
structure CacheState where
  mem : List (String × CacheEntry)
  file : List (String × CacheEntry)
  writable : Bool
deriving Repr, DecidableEq

def lookupKey : List (String × CacheEntry) → String → Option CacheEntry
  | [], _ => none
  | (k', v) :: t, k => if k' = k then some v else lookupKey t k

/-- Python `dict` assignment: replace in place if the key exists, else append. -/
def insertKey : List (String × CacheEntry) → String → CacheEntry → List (String × CacheEntry)
  | [], k, v => [(k, v)]
  | (k', v') :: t, k, v => if k' = k then (k, v) :: t else (k', v') :: insertKey t k v

/-- Python `del d[k]` on a unique-key dict: remove the entry for `k`. -/
def eraseKey : List (String × CacheEntry) → String → List (String × CacheEntry)
  | [], _ => []
  | (k', v) :: t, k => if k' = k then t else (k', v) :: eraseKey t k

/-- Embedding of `CacheManager._save_to_file`: mirror the index into the
durable file; an `IOError` on an unwritable medium is caught and only
logged, leaving the file as it was. -/
def _save_to_file (st : CacheState) : CacheState :=
  if st.writable then { st with file := st.mem } else st

/-- Outcome of reading the durable file at construction. -/
inductive FileRead where
  | absent
  | malformed
  | ioError
  | parsed (entries : List (String × CacheEntry))
deriving Repr, DecidableEq

/-- Embedding of `CacheManager._load_from_file`: a missing file, a
`json.JSONDecodeError` (malformed content) or an `IOError` all yield an
empty index; only a parse succeeding populates it. -/
def _load_from_file (fr : FileRead) : List (String × CacheEntry) :=
  match fr with
  | .absent => []
  | .malformed => []
  | .ioError => []
  | .parsed entries => entries

/-- Construction of the cache manager (`__init__` + `_load_from_file`). The
durable mirror is modelled by the entries it can yield to a later load. -/
def initCache (fr : FileRead) (writable : Bool) : CacheState :=
  { mem := _load_from_file fr, file := _load_from_file fr, writable := writable }

/-- Embedding of `CacheManager.get`: miss on an unknown key; an unparsable
or missing timestamp is caught and returned as a miss without mutation; an
entry older than the TTL is deleted from the index and the file is rewritten
before returning a miss; otherwise a payload that fails to validate is a
miss without mutation, and a valid payload is a hit. -/
def get (st : CacheState) (text_hash : String) (now : Int) : Option AnalysisResult × CacheState :=
  match lookupKey st.mem text_hash with
  | none => (none, st)
  | some cached_entry =>
    match cached_entry.timestamp with
    | none => (none, st)
    | some cached_timestamp =>
      if ttlSeconds < now - cached_timestamp then
        (none, _save_to_file { st with mem := eraseKey st.mem text_hash })
      else
        match cached_entry.result with
        | some r => (some r, st)
        | none => (none, st)

/-- Embedding of `CacheManager.set`: store the payload with the current
time, then persist. -/
def set (st : CacheState) (text_hash : String) (result : AnalysisResult) (now : Int) : CacheState :=
  _save_to_file { st with mem := insertKey st.mem text_hash ⟨some result, some now, text_hash⟩ }

/-- Embedding of `CacheManager.clear`. -/
def clear (st : CacheState) : CacheState :=
  _save_to_file { st with mem := [] }

/-- Embedding of `CacheManager.size`: `len(self._memory_cache)`. -/
def size (st : CacheState) : Nat := st.mem.length

end CacheManager

/-! ## `backend/service_llm.py` -/

namespace LLMService

/-- Does `hay` start with `needle`? -/
def startsWithChars : List Char → List Char → Bool
  | [], _ => true
  | _ :: _, [] => false
  | a :: as, b :: bs => a = b && startsWithChars as bs

/-- Is `needle` a contiguous segment of `hay`? -/
def infixChars (needle : List Char) : List Char → Bool
  | [] => needle.isEmpty
  | c :: t => startsWithChars needle (c :: t) || infixChars needle t

/-- Python `needle in hay` substring test. -/
def containsSub (hay needle : String) : Bool := infixChars needle.toList hay.toList

/-- `policy_text.lower()` (ASCII fragment). -/
def textLowerOf (t : String) : String := ⟨t.toList.map pyLowerChar⟩

/-- `concerning_keywords` from `_generate_mock_analysis`. -/
def concerning_keywords : List String :=
  ["third party", "third-party", "share", "sell", "indefinitely",
   "arbitration", "waive", "biometric", "tracking", "surveillance",
   "cannot control", "may modify", "without notice"]

/-- `positive_keywords` from `_generate_mock_analysis`. -/
def positive_keywords : List String :=
  ["delete", "opt out", "opt-out", "gdpr", "ccpa", "encrypted",
   "never share", "never sell", "your rights", "you can", "contact us"]

/-- `concern_count`: number of concerning keywords found in the lowercased text. -/
def concernCount (text_lower : String) : Nat :=
  concerning_keywords.countP (fun k => containsSub text_lower k)

/-- `positive_count`: number of positive keywords found in the lowercased text. -/
def positiveCount (text_lower : String) : Nat :=
  positive_keywords.countP (fun k => containsSub text_lower k)

/-- The score computation of `_generate_mock_analysis`: base 70, minus 5 per
concerning keyword, plus 3 per positive keyword, length adjustment on the
length of the given text, clamped to `[0, 100]`. -/
def mockScore (policy_text : String) : Int :=
  let text_lower := textLowerOf policy_text
  let text_length := policy_text.length
  let base_score : Int := 70
  let score := base_score - (concernCount text_lower : Int) * 5 + (positiveCount text_lower : Int) * 3
  let score := if text_length > 5000 then score - 10
               else if text_length < 1000 then score + 10
               else score
  max 0 (min 100 score)

/-- Summary template selection by score band. -/
def mockSummary (score : Int) : String :=
  if score ≥ 80 then
    "This privacy policy is relatively user-friendly and transparent. It clearly outlines data collection practices, provides users with control over their information, and demonstrates respect for privacy rights. The policy uses accessible language and offers straightforward options for data management."
  else if score ≥ 50 then
    "This privacy policy has moderate clarity with some areas of concern. While it outlines basic data practices, there are aspects that could be more transparent. Users should be aware of third-party data sharing and review the specific terms that apply to their usage. Some user rights are provided but may require additional steps to exercise."
  else
    "This privacy policy raises significant concerns regarding user privacy and data protection. The policy contains vague language, extensive data collection practices, and broad third-party sharing provisions. Users should carefully consider the implications before agreeing to these terms and explore alternative services if privacy is a priority."

/-- Red-flag generation of `_generate_mock_analysis`, in source order. -/
def mockRedFlags (policy_text : String) : List String :=
  let tl := textLowerOf policy_text
  (if containsSub tl "third party" || containsSub tl "third-party" then
     ["Extensive third-party data sharing mentioned"] else []) ++
  (if containsSub tl "sell" && containsSub tl "data" then
     ["Policy may allow selling of user data"] else []) ++
  (if containsSub tl "indefinitely" then
     ["Data may be retained indefinitely"] else []) ++
  (if containsSub tl "arbitration" then
     ["Mandatory arbitration clause limits legal options"] else []) ++
  (if containsSub tl "biometric" then
     ["Collection of biometric data mentioned"] else []) ++
  (if containsSub tl "tracking" then
     ["User tracking across devices or websites"] else []) ++
  (if containsSub tl "without notice" then
     ["Policy can be changed without user notification"] else []) ++
  (if concernCount tl > 5 && positiveCount tl < 3 then
     ["Limited user control over personal data"] else [])

/-- Action-item generation of `_generate_mock_analysis`, in source order. -/
def mockActionItems (policy_text url : String) (score : Int) : List ActionItem :=
  let tl := textLowerOf policy_text
  (if score < 70 then
     [⟨"Review privacy settings and limit data sharing where possible", none, "high"⟩] else []) ++
  (if containsSub tl "opt out" || containsSub tl "opt-out" then
     [⟨"Look for opt-out options in your account settings",
       if url ≠ "" then some (url ++ "#settings") else none, "medium"⟩] else []) ++
  (if score < 50 then
     [⟨"Consider using privacy-focused alternatives to this service", none, "high"⟩,
      ⟨"Use a VPN and privacy browser extensions when using this service", none, "medium"⟩] else []) ++
  (if containsSub tl "delete" then
     [⟨"Exercise your right to delete your data if you no longer use the service", none, "low"⟩] else [])

/-- Embedding of `LLMService._generate_mock_analysis`; `now` models
`datetime.now(timezone.utc)`. -/
def _generate_mock_analysis (policy_text url : String) (now : Int) : AnalysisResult :=
  let score := mockScore policy_text
  { score := score
    summary := mockSummary score
    red_flags := mockRedFlags policy_text
    user_action_items := mockActionItems policy_text url score
    timestamp := now
    url := url }

/-- The truncation applied on the remote (non-test-mode) path of
`analyze_policy`: cut to 50,000 characters and append the marker. -/
def truncatedForLLM (policy_text : String) : String :=
  if policy_text.length > 50000 then
    String.mk (policy_text.toList.take 50000) ++ "\n[Text truncated at 50,000 characters]"
  else policy_text

/-- Embedding of `LLMService.analyze_policy` in test mode (no API keys
configured): the mock analysis of the untruncated input is returned before
the truncation step is reached. -/
def analyze_policy_test_mode (policy_text url : String) (now : Int) : AnalysisResult :=
  _generate_mock_analysis policy_text url now

end LLMService

/-! ## `backend/service_discovery.py` -/

namespace DiscoveryService

/-- `common_paths` from `DiscoveryService.__init__`. -/
def common_paths : List String :=
  ["/privacy", "/privacy-policy", "/privacy_policy", "/legal",
   "/legal/privacy", "/terms", "/terms-of-service", "/tos"]

/-- Network effects consumed by the cascade, modelled as oracles. An
`Except Unit` error is an exception raised inside the corresponding
strategy body; `Option String` is its match outcome. -/
structure DiscoveryWorld where
  homepageScan : Except Unit (Option String)
  headStatus : String → Except Unit Nat
  ddgSearch : Except Unit (Option String)

/-- Strategy 1 of `_soft_discovery` (homepage link scan): an exception
anywhere in the fetch/parse/scan is caught and logged, yielding no match. -/
def homepageResult (w : DiscoveryWorld) : Option String :=
  match w.homepageScan with
  | .ok r => r
  | .error _ => none

/-- Strategy 2 of `_soft_discovery` (well-known path probing): for each
path in order, a HEAD probe; status 200 returns that URL, any other status
or an exception moves on to the next path. -/
def probePaths (headStatus : String → Except Unit Nat) (base_url : String) :
    List String → Option String
  | [] => none
  | path :: rest =>
    let target_url := base_url ++ path
    match headStatus target_url with
    | .ok status => if status = 200 then some target_url else probePaths headStatus base_url rest
    | .error _ => probePaths headStatus base_url rest

/-- Embedding of `DiscoveryService._soft_discovery`: homepage scan first,
then path probing only when the scan found nothing. -/
def _soft_discovery (w : DiscoveryWorld) (base_url : String) : Option String :=
  match homepageResult w with
  | some u => some u
  | none => probePaths w.headStatus base_url common_paths

/-- Embedding of `DiscoveryService._search_ddg`: an exception or an empty
result list yields no match. -/
def _search_ddg (w : DiscoveryWorld) : Option String :=
  match w.ddgSearch with
  | .ok r => r
  | .error _ => none

/-- Embedding of `DiscoveryService.find_policy`: domain extraction (its
failure is caught by the outer handler and yields absent), then soft
discovery, then the search fallback. -/
def find_policy (w : DiscoveryWorld) (domainResult : Except Unit String) : Option String :=
  match domainResult with
  | .error _ => none
  | .ok domain =>
    let base_url := "https://" ++ domain
    match _soft_discovery w base_url with
    | some u => some u
    | none => _search_ddg w

end DiscoveryService

/-! ## `backend/main.py` -/

namespace Main

/-- Exceptions the `analyze_policy` handler distinguishes when calling the
LLM service. -/
inductive EvalFailure where
  | valueError (msg : String)
  | connectionError (msg : String)
  | other (msg : String)
deriving Repr, DecidableEq

/-- HTTP status assigned to each failure by the handler's `except` arms. -/
def statusOf : EvalFailure → Nat
  | .valueError _ => 400
  | .connectionError _ => 503
  | .other _ => 500

/-- Embedding of the `/analyze` handler (`analyze_policy` in `main.py`)
after the optional URL fetch: empty text is rejected with 400; otherwise
the cache is consulted under the derived key, a hit returns immediately,
and a miss calls the evaluator `ev` (the LLM service), storing its result
on success and mapping its exception to an HTTP error on failure. -/
def analyze_policy (ev : String → String → Except EvalFailure AnalysisResult)
    (st : CacheManager.CacheState) (policy_text url : String) (now : Int) :
    Except Nat AnalysisResult × CacheManager.CacheState :=
  if policy_text = "" then (.error 400, st)
  else
    let text_hash := CacheManager.generate_key policy_text
    match CacheManager.get st text_hash now with
    | (some cached_result, st') => (.ok cached_result, st')
    | (none, st') =>
      match ev policy_text url with
      | .ok result => (.ok result, CacheManager.set st' text_hash result now)
      | .error e => (.error (statusOf e), st')

end Main

-- Validation of generate_key against digests of "ab", "a b" and "t"
-- computed with an independent SHA-256 implementation.
set_option maxRecDepth 100000 in
example : CacheManager.generate_key " AB" = "fb8e20fc2e4c3f248c60c39bd652f3c1347298bb977b8b4d5903b85055620603" := by decide
set_option maxRecDepth 100000 in
example : CacheManager.generate_key "A b " = "c8687a08aa5d6ed2044328fa6a697ab8e96dc34291e8c2034ae8c38e6fcc6d65" := by decide
set_option maxRecDepth 100000 in
example : CacheManager.generate_key "\t T \n" = "e3b98a4da31a127d4bde6e43033f66ba274cab0eb7eb1c70ec41402bf6273dd8" := by decide

/-! ## Sample data used by concrete witnesses and counterexamples -/

/-- The worked example from the fallback-scoring contract. -/
def fallbackExampleText : String :=
  "We sell your data to third parties and retain it indefinitely. We track you across websites."

/-- A representative valid analysis result. -/
def sampleResult : AnalysisResult :=
  { score := 85, summary := "ok", red_flags := [], user_action_items := [], timestamp := 0, url := "" }

/-- A well-formed cache entry stored at time 0. -/
def sampleEntry : CacheManager.CacheEntry := ⟨some sampleResult, some 0, "k"⟩

/-- A cache whose index holds `sampleEntry` under key "k". -/
def sampleState : CacheManager.CacheState :=
  ⟨[("k", sampleEntry)], [("k", sampleEntry)], true⟩

/-- An entry whose stored timestamp is missing or unparsable. -/
def entryNoTimestamp : CacheManager.CacheEntry := ⟨some sampleResult, none, "k"⟩

def stateNoTimestamp : CacheManager.CacheState :=
  ⟨[("k", entryNoTimestamp)], [("k", entryNoTimestamp)], true⟩

/-- An entry stored at time 0 whose payload fails validation. -/
def entryCorrupt : CacheManager.CacheEntry := ⟨none, some 0, "k"⟩

def stateCorrupt : CacheManager.CacheState :=
  ⟨[("k", entryCorrupt)], [("k", entryCorrupt)], true⟩

/-- A fresh cache over a writable medium. -/
def emptyCache : CacheManager.CacheState := ⟨[], [], true⟩

/-- An empty cache over an unwritable medium. -/
def unwritableCache : CacheManager.CacheState := ⟨[], [], false⟩

/-- Iterated `set` over a list of keys. -/
def setAll (st : CacheManager.CacheState) (ks : List String) (r : AnalysisResult) (now : Int) :
    CacheManager.CacheState :=
  ks.foldl (fun s k => CacheManager.set s k r now) st

/-- An evaluator that always succeeds with `sampleResult`. -/
def evalOk : String → String → Except Main.EvalFailure AnalysisResult :=
  fun _ _ => .ok sampleResult

/-- An evaluator that always raises a connection error. -/
def evalDown : String → String → Except Main.EvalFailure AnalysisResult :=
  fun _ _ => .error (.connectionError "down")

/-- A discovery world where the homepage scan finds a link and everything
else would raise. -/
def worldScanHit : DiscoveryService.DiscoveryWorld :=
  ⟨.ok (some "https://example.com/privacy"), fun _ => .error (), .error ()⟩

/-! ## Helper lemmas -/

theorem save_mem (s : CacheManager.CacheState) :
    (CacheManager._save_to_file s).mem = s.mem := by
  unfold CacheManager._save_to_file; split <;> rfl

theorem save_writable (s : CacheManager.CacheState) :
    (CacheManager._save_to_file s).writable = s.writable := by
  unfold CacheManager._save_to_file; split <;> rfl

theorem lookup_insert_self (m : List (String × CacheManager.CacheEntry)) (k : String)
    (v : CacheManager.CacheEntry) :
    CacheManager.lookupKey (CacheManager.insertKey m k v) k = some v := by
  induction m with
  | nil => simp [CacheManager.insertKey, CacheManager.lookupKey]
  | cons hd tl ih =>
    obtain ⟨k', v'⟩ := hd
    by_cases h : k' = k
    · simp [CacheManager.insertKey, CacheManager.lookupKey, h]
    · simp [CacheManager.insertKey, CacheManager.lookupKey, h, ih]

theorem lookup_insert_ne (m : List (String × CacheManager.CacheEntry)) (k k' : String)
    (v : CacheManager.CacheEntry) (h : k' ≠ k) :
    CacheManager.lookupKey (CacheManager.insertKey m k v) k' = CacheManager.lookupKey m k' := by
  induction m with
  | nil => simp [CacheManager.insertKey, CacheManager.lookupKey, Ne.symm h]
  | cons hd tl ih =>
    obtain ⟨k0, v0⟩ := hd
    by_cases h0 : k0 = k
    · subst h0
      have hne : ¬ (k0 = k') := fun hh => h hh.symm
      simp [CacheManager.insertKey, CacheManager.lookupKey, hne]
    · simp [CacheManager.insertKey, CacheManager.lookupKey, h0, ih]

theorem insert_length_fresh (m : List (String × CacheManager.CacheEntry)) (k : String)
    (v : CacheManager.CacheEntry) (h : CacheManager.lookupKey m k = none) :
    (CacheManager.insertKey m k v).length = m.length + 1 := by
  induction m with
  | nil => simp [CacheManager.insertKey]
  | cons hd tl ih =>
    obtain ⟨k0, v0⟩ := hd
    by_cases h0 : k0 = k
    · simp [CacheManager.lookupKey, h0] at h
    · simp only [CacheManager.lookupKey, h0, if_false] at h
      simp [CacheManager.insertKey, h0, ih h]

theorem erase_length_of_lookup (m : List (String × CacheManager.CacheEntry)) (k : String)
    (e : CacheManager.CacheEntry) (h : CacheManager.lookupKey m k = some e) :
    (CacheManager.eraseKey m k).length + 1 = m.length := by
  induction m with
  | nil => simp [CacheManager.lookupKey] at h
  | cons hd tl ih =>
    obtain ⟨k0, v0⟩ := hd
    by_cases h0 : k0 = k
    · simp [CacheManager.eraseKey, h0]
    · simp only [CacheManager.lookupKey, h0, if_false] at h
      simp [CacheManager.eraseKey, h0, ih h]

theorem sha256_length (msg : List Nat) : (SHA256.sha256 msg).length = 64 := by
  unfold SHA256.sha256 SHA256.digestHex SHA256.wordHex
  simp

/-! ## Claim theorems -/

/-- C4 counterexample: on the given example text the local fallback
evaluator produces a score of exactly 70, so the score is NOT below 70 as
the claim states. -/
theorem fallback_example_score_not_below_70 :
    ¬ (LLMService._generate_mock_analysis fallbackExampleText "" 0).score < 70 := by
  decide

/-- C4 (amended): the local fallback evaluator applied to the example text
(no reassuring terms) produces a score of at most 70 (in fact exactly 70),
and its red-flags list contains the selling-data flag and the retention
flag. -/
theorem fallback_example_score_at_most_70 :
    (LLMService._generate_mock_analysis fallbackExampleText "" 0).score ≤ 70 ∧
    "Policy may allow selling of user data" ∈
      (LLMService._generate_mock_analysis fallbackExampleText "" 0).red_flags ∧
    "Data may be retained indefinitely" ∈
      (LLMService._generate_mock_analysis fallbackExampleText "" 0).red_flags := by
  refine ⟨by decide, by decide, by decide⟩

set_option maxRecDepth 1000000 in
/-- C5: key derivation is deterministic, normalizes only the edges (leading
and trailing whitespace and case are folded, so " T " and "t" share a key),
preserves internal whitespace ("A B" and "AB" get different keys), and
succeeds on every input, always producing a 64-hex-character key. -/
theorem generate_key_contract :
    (∀ t : String, CacheManager.generate_key t = CacheManager.generate_key t) ∧
    CacheManager.generate_key " T " = CacheManager.generate_key "t" ∧
    CacheManager.generate_key "A B" ≠ CacheManager.generate_key "AB" ∧
    (∀ t : String, (CacheManager.generate_key t).length = 64) := by
  refine ⟨fun _ => rfl, ?_, by decide, ?_⟩
  · have h : (pyStrip " T ".toList).map pyLowerChar = (pyStrip "t".toList).map pyLowerChar := by
      decide
    unfold CacheManager.generate_key
    rw [h]
  · intro t
    show (SHA256.sha256 _).length = 64
    exact sha256_length _

/-- C6: a `set` immediately followed by a `get` of the same key returns the
stored result, equal in every field. -/
theorem set_get_round_trip (st : CacheManager.CacheState) (k : String) (r : AnalysisResult)
    (now : Int) :
    CacheManager.get (CacheManager.set st k r now) k now = (some r, CacheManager.set st k r now) := by
  have hm : (CacheManager.set st k r now).mem =
      CacheManager.insertKey st.mem k ⟨some r, some now, k⟩ := save_mem _
  unfold CacheManager.get
  rw [hm, lookup_insert_self]
  norm_num [CacheManager.ttlSeconds, CacheManager.CACHE_TTL_DAYS]

/-- C1: for an entry whose stored timestamp parses, `get` on a writable
medium evicts the entry from the index and rewrites the durable store
before returning absent when the entry is older than the TTL, and returns
the stored result without any mutation when the entry is within the TTL. -/
theorem get_ttl_semantics (st : CacheManager.CacheState) (k : String)
    (e : CacheManager.CacheEntry) (now ts : Int) (hw : st.writable = true)
    (hl : CacheManager.lookupKey st.mem k = some e) (hts : e.timestamp = some ts) :
    (CacheManager.ttlSeconds < now - ts →
      CacheManager.get st k now =
        (none, ⟨CacheManager.eraseKey st.mem k, CacheManager.eraseKey st.mem k, true⟩)) ∧
    (now - ts ≤ CacheManager.ttlSeconds → ∀ r, e.result = some r →
      CacheManager.get st k now = (some r, st)) := by
  constructor
  · intro hexp
    unfold CacheManager.get
    simp [hl, hts, hexp, CacheManager._save_to_file, hw]
  · intro hok r hr
    unfold CacheManager.get
    simp [hl, hts, hr, not_lt.mpr hok]

/-- Concrete instance of `get_ttl_semantics`: the sample entry stored at
time 0 is evicted at time TTL+1 and returned intact at time 5. -/
theorem get_ttl_semantics_witness :
    CacheManager.get sampleState "k" 2592001 =
      (none, ⟨CacheManager.eraseKey sampleState.mem "k",
              CacheManager.eraseKey sampleState.mem "k", true⟩) ∧
    CacheManager.get sampleState "k" 5 = (some sampleResult, sampleState) :=
  ⟨(get_ttl_semantics sampleState "k" sampleEntry 2592001 0 rfl (by decide) rfl).1 (by decide),
   (get_ttl_semantics sampleState "k" sampleEntry 5 0 rfl (by decide) rfl).2 (by decide)
     sampleResult rfl⟩

/-- C7 counterexample: a `get` that triggers expiry eviction does change
`size()` — on a one-entry cache holding an expired entry, `size` drops
from 1 to 0. -/
theorem size_changed_by_evicting_get :
    CacheManager.size (CacheManager.get sampleState "k" 2592001).2 ≠
      CacheManager.size sampleState := by
  decide

/-- Auxiliary: inserting pairwise-distinct fresh keys grows the index by
one per key. -/
theorem size_setAll_fresh (ks : List String) (st : CacheManager.CacheState)
    (r : AnalysisResult) (now : Int) (hnd : ks.Nodup)
    (hfresh : ∀ k ∈ ks, CacheManager.lookupKey st.mem k = none) :
    CacheManager.size (setAll st ks r now) = CacheManager.size st + ks.length := by
  induction ks generalizing st with
  | nil => simp [setAll, CacheManager.size]
  | cons k rest ih =>
    obtain ⟨hk, hrest⟩ := List.nodup_cons.mp hnd
    have hone : (CacheManager.set st k r now).mem =
        CacheManager.insertKey st.mem k ⟨some r, some now, k⟩ := save_mem _
    have hlen : CacheManager.size (CacheManager.set st k r now) = CacheManager.size st + 1 := by
      unfold CacheManager.size
      rw [hone, insert_length_fresh st.mem k _ (hfresh k (by simp))]
    have hfresh' : ∀ k' ∈ rest,
        CacheManager.lookupKey (CacheManager.set st k r now).mem k' = none := by
      intro k' hk'
      rw [hone, lookup_insert_ne st.mem k k' _ (fun hh => hk (hh ▸ hk'))]
      exact hfresh k' (by simp [hk'])
    rw [show setAll st (k :: rest) r now = setAll (CacheManager.set st k r now) rest r now from rfl,
        ih (CacheManager.set st k r now) hrest hfresh', hlen]
    simp only [List.length_cons]
    omega

/-- C7 (amended): after `set` for N distinct keys starting from an empty
cache, `size()` equals N; a `get` either leaves `size()` unchanged (no
eviction) or — when it evicts an expired entry — decreases `size()` by
exactly one, so `size()` IS affected by expiry-evicting `get` calls. -/
theorem size_accounting :
    (∀ (ks : List String) (r : AnalysisResult) (now : Int), ks.Nodup →
       CacheManager.size (setAll emptyCache ks r now) = ks.length) ∧
    (∀ (st : CacheManager.CacheState) (k : String) (now : Int),
       CacheManager.size (CacheManager.get st k now).2 = CacheManager.size st ∨
       (CacheManager.lookupKey st.mem k ≠ none ∧
        CacheManager.size (CacheManager.get st k now).2 + 1 = CacheManager.size st)) := by
  constructor
  · intro ks r now hnd
    have h := size_setAll_fresh ks emptyCache r now hnd (fun k _ => rfl)
    simpa [emptyCache, CacheManager.size] using h
  · intro st k now
    unfold CacheManager.get
    cases hl : CacheManager.lookupKey st.mem k with
    | none => left; simp
    | some e =>
      cases hts : e.timestamp with
      | none => left; simp [hts]
      | some ts =>
        by_cases hexp : CacheManager.ttlSeconds < now - ts
        · right
          refine ⟨by simp [hl], ?_⟩
          have h2 := erase_length_of_lookup st.mem k e hl
          simp only [hts, hexp, if_true]
          simpa [CacheManager.size, save_mem] using h2
        · left
          simp only [hts, hexp, if_false]
          cases hr : e.result <;> simp [hr]

/-- Concrete instance of `size_accounting`: two distinct fresh keys give
size 2. -/
theorem size_accounting_witness :
    CacheManager.size (setAll emptyCache ["a", "b"] sampleResult 0) = 2 :=
  size_accounting.1 ["a", "b"] sampleResult 0 (by decide)

/-- C9 counterexample: an entry whose payload fails validation but whose
timestamp is parsable and expired IS evicted by `get` — the index does not
stay unchanged as the claim states. -/
theorem corrupt_expired_entry_evicted :
    (CacheManager.get stateCorrupt "k" 2592001).1 = none ∧
    (CacheManager.get stateCorrupt "k" 2592001).2.mem ≠ stateCorrupt.mem := by
  refine ⟨by decide, by decide⟩

/-- C9 (amended): an entry with an unparsable timestamp, or an unexpired
entry whose payload fails validation, makes `get` return absent with the
state (index and durable file) completely unchanged; any state mutation by
`get` implies the looked-up entry had a parsable, TTL-expired timestamp. -/
theorem get_corrupt_entry_semantics (st : CacheManager.CacheState) (k : String)
    (e : CacheManager.CacheEntry) (now : Int)
    (hl : CacheManager.lookupKey st.mem k = some e) :
    (e.timestamp = none → CacheManager.get st k now = (none, st)) ∧
    (∀ ts, e.timestamp = some ts → now - ts ≤ CacheManager.ttlSeconds → e.result = none →
       CacheManager.get st k now = (none, st)) ∧
    ((CacheManager.get st k now).2 ≠ st →
       ∃ ts, e.timestamp = some ts ∧ CacheManager.ttlSeconds < now - ts) := by
  refine ⟨?_, ?_, ?_⟩
  · intro hts
    unfold CacheManager.get
    simp [hl, hts]
  · intro ts hts hok hr
    unfold CacheManager.get
    simp [hl, hts, hr, not_lt.mpr hok]
  · intro hch
    by_contra hna
    push_neg at hna
    apply hch
    unfold CacheManager.get
    cases hts : e.timestamp with
    | none => simp [hl, hts]
    | some ts =>
      simp only [hl, hts, not_lt.mpr (hna ts hts), if_false]
      cases e.result <;> simp

/-- Concrete instance of `get_corrupt_entry_semantics`: a missing timestamp
and an unexpired corrupt payload both yield a miss with no mutation. -/
theorem get_corrupt_entry_semantics_witness :
    CacheManager.get stateNoTimestamp "k" 0 = (none, stateNoTimestamp) ∧
    CacheManager.get stateCorrupt "k" 5 = (none, stateCorrupt) :=
  ⟨(get_corrupt_entry_semantics stateNoTimestamp "k" entryNoTimestamp 0 (by decide)).1 rfl,
   (get_corrupt_entry_semantics stateCorrupt "k" entryCorrupt 5 (by decide)).2.1 0 rfl
     (by decide) rfl⟩

/-- C8: a malformed durable file at construction yields an empty in-memory
index rather than a failure, and a `set` over an unwritable medium still
performs the in-memory insertion (the new entry is present under its key)
while leaving the durable file untouched, returning normally. -/
theorem cache_absorbs_durable_failures :
    (∀ w : Bool, (CacheManager.initCache .malformed w).mem = []) ∧
    (∀ (st : CacheManager.CacheState) (k : String) (r : AnalysisResult) (now : Int),
       st.writable = false →
       (CacheManager.set st k r now).mem =
         CacheManager.insertKey st.mem k ⟨some r, some now, k⟩ ∧
       (CacheManager.set st k r now).file = st.file ∧
       CacheManager.lookupKey (CacheManager.set st k r now).mem k =
         some ⟨some r, some now, k⟩) := by
  constructor
  · intro w; rfl
  · intro st k r now hw
    refine ⟨save_mem _, ?_, ?_⟩
    · unfold CacheManager.set CacheManager._save_to_file
      simp [hw]
    · unfold CacheManager.set
      rw [save_mem]
      exact lookup_insert_self st.mem k _

/-- Concrete instance of `cache_absorbs_durable_failures` on the
unwritable empty cache. -/
theorem cache_absorbs_durable_failures_witness :
    (CacheManager.initCache .malformed false).mem = [] ∧
    (CacheManager.set unwritableCache "k" sampleResult 0).file = unwritableCache.file ∧
    CacheManager.lookupKey (CacheManager.set unwritableCache "k" sampleResult 0).mem "k" =
      some ⟨some sampleResult, some 0, "k"⟩ :=
  ⟨cache_absorbs_durable_failures.1 false,
   (cache_absorbs_durable_failures.2 unwritableCache "k" sampleResult 0 rfl).2.1,
   (cache_absorbs_durable_failures.2 unwritableCache "k" sampleResult 0 rfl).2.2⟩

/-- C2: for non-empty text, the analyze handler is cache-aside — a valid
cached entry under the derived key is returned as-is with no evaluator
dependence and no state change beyond the get's own housekeeping; on a miss
the evaluator result is stored under the key and returned, and an evaluator
failure propagates as its typed HTTP error with no cache write. -/
theorem analyze_cache_aside (ev : String → String → Except Main.EvalFailure AnalysisResult)
    (st : CacheManager.CacheState) (t url : String) (now : Int) (hne : t ≠ "") :
    (∀ (r : AnalysisResult) (st' : CacheManager.CacheState),
       CacheManager.get st (CacheManager.generate_key t) now = (some r, st') →
       Main.analyze_policy ev st t url now = (.ok r, st') ∧
       ∀ ev', Main.analyze_policy ev' st t url now = Main.analyze_policy ev st t url now) ∧
    (∀ st' : CacheManager.CacheState,
       CacheManager.get st (CacheManager.generate_key t) now = (none, st') →
       (∀ r, ev t url = .ok r →
          Main.analyze_policy ev st t url now =
            (.ok r, CacheManager.set st' (CacheManager.generate_key t) r now)) ∧
       (∀ e, ev t url = .error e →
          Main.analyze_policy ev st t url now = (.error (Main.statusOf e), st'))) := by
  constructor
  · intro r st' hget
    constructor
    · unfold Main.analyze_policy
      simp [hne, hget]
    · intro ev'
      unfold Main.analyze_policy
      simp [hne, hget]
  · intro st' hget
    constructor
    · intro r hok
      unfold Main.analyze_policy
      simp [hne, hget, hok]
    · intro e herr
      unfold Main.analyze_policy
      simp [hne, hget, herr]

/-- Concrete instance of `analyze_cache_aside` on the empty cache: an
evaluator success is stored and returned; a connection failure surfaces
as HTTP 503 with the cache untouched. -/
theorem analyze_cache_aside_witness :
    Main.analyze_policy evalOk emptyCache "policy" "" 0 =
      (.ok sampleResult,
       CacheManager.set emptyCache (CacheManager.generate_key "policy") sampleResult 0) ∧
    Main.analyze_policy evalDown emptyCache "policy" "" 0 = (.error 503, emptyCache) :=
  ⟨((analyze_cache_aside evalOk emptyCache "policy" "" 0 (by decide)).2 emptyCache rfl).1
      sampleResult rfl,
   ((analyze_cache_aside evalDown emptyCache "policy" "" 0 (by decide)).2 emptyCache rfl).2
      (.connectionError "down") rfl⟩

/-- C3: the discovery cascade runs its strategies in strict priority order
(homepage link scan, then well-known path probing, then external search): a
match in an earlier strategy is returned and makes the outcome independent
of the later strategies' oracles; an exception inside a strategy is
converted to "no match" for that strategy only; and exhaustion (or a domain
extraction failure) yields absent, never an error. -/
theorem find_policy_cascade (w : DiscoveryService.DiscoveryWorld) (domain : String) :
    (∀ u, DiscoveryService.homepageResult w = some u →
       DiscoveryService.find_policy w (.ok domain) = some u ∧
       ∀ hs ddg, DiscoveryService.find_policy
           { w with headStatus := hs, ddgSearch := ddg } (.ok domain) = some u) ∧
    (DiscoveryService.homepageResult w = none →
       ∀ u, DiscoveryService.probePaths w.headStatus ("https://" ++ domain)
              DiscoveryService.common_paths = some u →
       DiscoveryService.find_policy w (.ok domain) = some u ∧
       ∀ ddg, DiscoveryService.find_policy { w with ddgSearch := ddg } (.ok domain) = some u) ∧
    (DiscoveryService.homepageResult w = none →
       DiscoveryService.probePaths w.headStatus ("https://" ++ domain)
         DiscoveryService.common_paths = none →
       DiscoveryService.find_policy w (.ok domain) = DiscoveryService._search_ddg w) ∧
    (w.homepageScan = .error () → DiscoveryService.homepageResult w = none) ∧
    (w.ddgSearch = .error () → DiscoveryService._search_ddg w = none) ∧
    (DiscoveryService.find_policy w (.error ()) = none) := by
  obtain ⟨hsF, prF, ddgF⟩ := w
  refine ⟨?_, ?_, ?_, ?_, ?_, rfl⟩
  · intro u hu
    cases hsF with
    | ok r =>
      simp [DiscoveryService.homepageResult] at hu
      subst hu
      exact ⟨by simp [DiscoveryService.find_policy, DiscoveryService._soft_discovery,
                      DiscoveryService.homepageResult],
             fun hs ddg => by simp [DiscoveryService.find_policy, DiscoveryService._soft_discovery,
                                    DiscoveryService.homepageResult]⟩
    | error e =>
      simp [DiscoveryService.homepageResult] at hu
  · intro hnone u hp
    cases hsF with
    | ok r =>
      simp [DiscoveryService.homepageResult] at hnone
      subst hnone
      exact ⟨by simp [DiscoveryService.find_policy, DiscoveryService._soft_discovery,
                      DiscoveryService.homepageResult, hp],
             fun ddg => by simp [DiscoveryService.find_policy, DiscoveryService._soft_discovery,
                                 DiscoveryService.homepageResult, hp]⟩
    | error e =>
      exact ⟨by simp [DiscoveryService.find_policy, DiscoveryService._soft_discovery,
                      DiscoveryService.homepageResult, hp],
             fun ddg => by simp [DiscoveryService.find_policy, DiscoveryService._soft_discovery,
                                 DiscoveryService.homepageResult, hp]⟩
  · intro hnone hp
    cases hsF with
    | ok r =>
      simp [DiscoveryService.homepageResult] at hnone
      subst hnone
      simp [DiscoveryService.find_policy, DiscoveryService._soft_discovery,
            DiscoveryService.homepageResult, hp]
    | error e =>
      simp [DiscoveryService.find_policy, DiscoveryService._soft_discovery,
            DiscoveryService.homepageResult, hp]
  · intro herr
    dsimp only at herr
    subst herr
    simp [DiscoveryService.homepageResult]
  · intro herr
    dsimp only at herr
    subst herr
    simp [DiscoveryService._search_ddg]

/-- Concrete instance of `find_policy_cascade`: a homepage-scan hit is
returned even though every later oracle would raise. -/
theorem find_policy_cascade_witness :
    DiscoveryService.find_policy worldScanHit (.ok "example.com") =
      some "https://example.com/privacy" :=
  ((find_policy_cascade worldScanHit "example.com").1 "https://example.com/privacy" rfl).1

/-- C10: with no remote evaluator configured (test mode), `analyze_policy`
hands the full, untruncated input to the mock analysis: the result equals
the mock of the original text for inputs of every size, its score applies
the length adjustment to the original length, and its red flags come from
scanning the full text. -/
theorem analyze_test_mode_untruncated (t url : String) (now : Int) :
    LLMService.analyze_policy_test_mode t url now = LLMService._generate_mock_analysis t url now ∧
    (LLMService.analyze_policy_test_mode t url now).score =
      max 0 (min 100 ((70 : Int) - (LLMService.concernCount (LLMService.textLowerOf t) : Int) * 5 +
        (LLMService.positiveCount (LLMService.textLowerOf t) : Int) * 3 +
        (if t.length > 5000 then (-10 : Int) else if t.length < 1000 then 10 else 0))) ∧
    (LLMService.analyze_policy_test_mode t url now).red_flags = LLMService.mockRedFlags t := by
  refine ⟨rfl, ?_, rfl⟩
  show LLMService.mockScore t = _
  unfold LLMService.mockScore
  dsimp only
  split_ifs <;> simp [sub_eq_add_neg]
